import Mathlib

/-!
Verification of the ReTrigger cog (`retrigger/retrigger.py`).

The development shallowly embeds the command handlers of the cog.  The
in-memory trigger index (`self.triggers[guild_id]`, a Python dict keyed by
trigger name) and the persisted per-guild trigger list
(`config.guild(...).trigger_list`, also a name-keyed mapping) are both
modelled as insertion-ordered association lists, matching Python dict
semantics (assignment replaces in place, new keys are appended).

Machinery that lives outside `retrigger.py` (the `Trigger` class of
`converters.py`, `TriggerHandler.can_edit`) is modelled from the spec and
marked as such on each definition.
-/

namespace ReTrigger

/-- Python dict read: first (and only) binding of a key in an
insertion-ordered association list. -/
def getEntry {α : Type} : List (String × α) → String → Option α
  | [], _ => none
  | (k1, v) :: rest, k => if k1 = k then some v else getEntry rest k

/-- Python dict assignment `d[k] = v`: replace the binding in place if the
key is present, otherwise append it. -/
def setEntry {α : Type} : List (String × α) → String → α → List (String × α)
  | [], k, v => [(k, v)]
  | (k1, v1) :: rest, k, v =>
      if k1 = k then (k, v) :: rest else (k1, v1) :: setEntry rest k v

/-- Python dict membership `k in d`. -/
def containsKey {α : Type} (l : List (String × α)) (k : String) : Bool :=
  (getEntry l k).isSome

/-- The `last` slot of a stored cooldown: the cooldown command stores the
literal `0` for guild/server style and the literal `[]` otherwise
(retrigger.py lines 840-843); the author-scoped list later holds
(identity, timestamp) pairs. -/
inductive CooldownLast : Type
  | scalar (t : Int)
  | entries (l : List (Nat × Int))
deriving DecidableEq, Repr

/-- A stored cooldown: either the empty dict `{}` or a dict
`{time, style, last}` as built by the cooldown command. -/
inductive Cooldown : Type
  | empty
  | set (time : Int) (style : String) (last : CooldownLast)
deriving DecidableEq, Repr

/-- Trigger record, following the fields of `Trigger` in `converters.py`
that the handlers in `retrigger.py` read and write.  The compiled pattern
is represented by its source text (spec: compiled artifacts are never
persisted and are rebuilt from source). -/
structure Trigger : Type where
  name : String
  regexSource : String
  response_type : List String
  author_id : Nat
  created_at : Nat := 0
  text : Option String := none
  check_edits : Bool := false
  read_filenames : Bool := false
  enabled : Bool := true
  chance : Int := 0
  cooldown : Cooldown := Cooldown.empty
  whitelist : List Nat := []
  blacklist : List Nat := []
  delete_after : Option Int := none
deriving DecidableEq, Repr

/-- Modelled from the spec: `Trigger.to_json` lives in `converters.py`,
which is not part of the handler source; spec section 8 requires the
serialize/deserialize round trip to be field-equivalent, so the serialized
record is modelled as the record itself. -/
def to_json (t : Trigger) : Trigger := t

/-- Per-guild state the handlers touch: the in-memory index
`self.triggers[guild_id]` and the persisted `trigger_list`. -/
structure GuildState : Type where
  triggers : List (String × Trigger)
  trigger_list : List (String × Trigger)
deriving DecidableEq, Repr

/-- Shared tail of every mutating handler: write the trigger into the
in-memory index and persist its serialized form under its name. -/
def updateState (st : GuildState) (name : String) (t : Trigger) : GuildState :=
  { triggers := setEntry st.triggers name t,
    trigger_list := setEntry st.trigger_list name (to_json t) }

/-- Outcome of the cooldown command. -/
inductive CooldownOutcome : Type
  | noTrigger
  | badStyle
  | done (cd : Cooldown)
deriving DecidableEq, Repr

/-- The `retrigger edit cooldown` command (retrigger.py lines 816-857):
reject unknown triggers and invalid styles, map user/member to author,
store a scalar `last` for guild/server style and a list otherwise, and
clear the cooldown entirely when the time is 0 or less. -/
def cooldown_cmd (st : GuildState) (name : String) (time : Int)
    (style : String) : GuildState × CooldownOutcome :=
  match getEntry st.triggers name with
  | none => (st, CooldownOutcome.noTrigger)
  | some t =>
      if style = "guild" ∨ style = "server" ∨ style = "channel" ∨
          style = "user" ∨ style = "member" then
        let style1 := if style = "user" ∨ style = "member" then "author" else style
        let cd :=
          if style1 = "guild" ∨ style1 = "server" then
            Cooldown.set time style1 (CooldownLast.scalar 0)
          else
            Cooldown.set time style1 (CooldownLast.entries [])
        let cd := if time ≤ 0 then Cooldown.empty else cd
        (updateState st name { t with cooldown := cd }, CooldownOutcome.done cd)
      else (st, CooldownOutcome.badStyle)

/-- Whether a stored cooldown's last-fire state is a single scalar
timestamp. -/
def scalarLast : Cooldown → Bool
  | Cooldown.set _ _ (CooldownLast.scalar _) => true
  | _ => false

/-- A concrete trigger used in closed witnesses and counterexamples. -/
def trig0 : Trigger :=
  { name := "t", regexSource := "hello", response_type := ["text"],
    author_id := 1, text := some "hi" }

/-- A concrete one-trigger guild state. -/
def st0 : GuildState :=
  { triggers := [("t", trig0)], trigger_list := [("t", to_json trig0)] }

-- Basic association list lemmas, shared by the proofs below.

theorem getEntry_setEntry_self {α : Type} (l : List (String × α)) (k : String)
    (v : α) : getEntry (setEntry l k v) k = some v := by
  induction l with
  | nil => simp [setEntry, getEntry]
  | cons hd tl ih =>
      obtain ⟨k1, v1⟩ := hd
      by_cases h : k1 = k
      · simp [setEntry, h, getEntry]
      · simp [setEntry, h, getEntry, ih]

theorem getEntry_setEntry_ne {α : Type} (l : List (String × α)) (k k2 : String)
    (v : α) (h : k2 ≠ k) : getEntry (setEntry l k v) k2 = getEntry l k2 := by
  induction l with
  | nil => simp [setEntry, getEntry, Ne.symm h]
  | cons hd tl ih =>
      obtain ⟨k1, v1⟩ := hd
      by_cases h1 : k1 = k
      · subst h1
        simp [setEntry, getEntry, Ne.symm h]
      · simp [setEntry, h1, getEntry, ih]

/-- C2 counterexample: a 60-second channel-style cooldown stores a
list-shaped last-fire state (`last = []`), not the single scalar timestamp
claimed for channel-wide scope. -/
theorem cooldown_channel_scalar_counterexample :
    (cooldown_cmd st0 "t" 60 "channel").2 =
      CooldownOutcome.done (Cooldown.set 60 "channel" (CooldownLast.entries [])) ∧
    scalarLast (Cooldown.set 60 "channel" (CooldownLast.entries [])) = false := by
  constructor
  · decide
  · rfl

/-- C2 (amended): with a positive duration, the stored last-fire state is a
single scalar timestamp for guild/server scope only, while channel scope and
author scope (entered as user/member) both store a per-key list, initially
empty. -/
theorem cooldown_shape (st : GuildState) (name : String) (time : Int)
    (style : String) (t : Trigger)
    (ht : getEntry st.triggers name = some t) (htime : 0 < time) :
    ((style = "guild" ∨ style = "server") →
      cooldown_cmd st name time style =
        (updateState st name
          { t with cooldown := Cooldown.set time style (CooldownLast.scalar 0) },
         CooldownOutcome.done (Cooldown.set time style (CooldownLast.scalar 0)))) ∧
    (style = "channel" →
      cooldown_cmd st name time style =
        (updateState st name
          { t with cooldown := Cooldown.set time "channel" (CooldownLast.entries []) },
         CooldownOutcome.done (Cooldown.set time "channel" (CooldownLast.entries [])))) ∧
    ((style = "user" ∨ style = "member") →
      cooldown_cmd st name time style =
        (updateState st name
          { t with cooldown := Cooldown.set time "author" (CooldownLast.entries []) },
         CooldownOutcome.done (Cooldown.set time "author" (CooldownLast.entries [])))) := by
  refine ⟨?_, ?_, ?_⟩
  · rintro (rfl | rfl) <;>
      simp [cooldown_cmd, ht, not_le.mpr htime]
  · rintro rfl
    simp [cooldown_cmd, ht, not_le.mpr htime]
  · rintro (rfl | rfl) <;>
      simp [cooldown_cmd, ht, not_le.mpr htime]

/-- Witness for the amended C2 theorem at concrete inputs. -/
theorem cooldown_shape_witness :
    getEntry st0.triggers "t" = some trig0 ∧ (0 : Int) < 60 ∧
    cooldown_cmd st0 "t" 60 "server" =
      (updateState st0 "t"
        { trig0 with cooldown := Cooldown.set 60 "server" (CooldownLast.scalar 0) },
       CooldownOutcome.done (Cooldown.set 60 "server" (CooldownLast.scalar 0))) :=
  ⟨by decide, by decide,
    (cooldown_shape st0 "t" 60 "server" trig0 (by decide) (by decide)).1 (Or.inr rfl)⟩

/-- C3: setting a cooldown with a duration of 0 or less clears the stored
cooldown entirely, in the in-memory index and in the persisted list. -/
theorem cooldown_nonpositive_clears (st : GuildState) (name : String)
    (time : Int) (style : String) (t : Trigger)
    (ht : getEntry st.triggers name = some t)
    (hstyle : style = "guild" ∨ style = "server" ∨ style = "channel" ∨
      style = "user" ∨ style = "member")
    (htime : time ≤ 0) :
    cooldown_cmd st name time style =
      (updateState st name { t with cooldown := Cooldown.empty },
       CooldownOutcome.done Cooldown.empty) ∧
    getEntry (cooldown_cmd st name time style).1.triggers name =
      some { t with cooldown := Cooldown.empty } ∧
    getEntry (cooldown_cmd st name time style).1.trigger_list name =
      some (to_json { t with cooldown := Cooldown.empty }) := by
  have hmain : cooldown_cmd st name time style =
      (updateState st name { t with cooldown := Cooldown.empty },
       CooldownOutcome.done Cooldown.empty) := by
    rcases hstyle with rfl | rfl | rfl | rfl | rfl <;>
      simp [cooldown_cmd, ht, htime]
  refine ⟨hmain, ?_, ?_⟩
  · rw [hmain]
    exact getEntry_setEntry_self _ _ _
  · rw [hmain]
    exact getEntry_setEntry_self _ _ _

/-- Witness for the C3 theorem at concrete inputs. -/
theorem cooldown_nonpositive_clears_witness :
    getEntry st0.triggers "t" = some trig0 ∧ (0 : Int) ≤ 0 ∧
    cooldown_cmd st0 "t" 0 "channel" =
      (updateState st0 "t" { trig0 with cooldown := Cooldown.empty },
       CooldownOutcome.done Cooldown.empty) :=
  ⟨by decide, by decide,
    (cooldown_nonpositive_clears st0 "t" 0 "channel" trig0 (by decide)
      (Or.inr (Or.inr (Or.inl rfl))) (by decide)).1⟩

/-- Outcome of a trigger creation command. -/
inductive CreateOutcome : Type
  | created
  | alreadyExists
  | invalidPattern (diag : String)
deriving DecidableEq, Repr

/-- Modelled from the spec: `Trigger.__init__` lives in `converters.py`,
which is not part of the handler source.  Per spec section 3 (lifecycle:
construction validates the regex) and section 4.1 (the compiler returns a
compiled pattern or fails with InvalidPattern carrying the compiler
diagnostic), construction compiles the source string and propagates the
diagnostic on failure.  The regex compiler itself is external, so it is a
parameter. -/
def mkTrigger (compile : String → Except String String) (name regex : String)
    (response_type : List String) (author : Nat) (created_at : Nat)
    (txt : Option String) (check_edits : Bool) (read_filenames : Bool) :
    Except String Trigger :=
  match compile regex with
  | Except.error e => Except.error e
  | Except.ok _ =>
      Except.ok { name := name, regexSource := regex,
                  response_type := response_type, author_id := author,
                  created_at := created_at, text := txt,
                  check_edits := check_edits, read_filenames := read_filenames }

/-- Shared tail of every creation command body (e.g. retrigger.py lines
1983-1988): put the new trigger in the in-memory index and persist it. -/
def addTrigger (st : GuildState) (t : Trigger) : GuildState :=
  { triggers := setEntry st.triggers t.name t,
    trigger_list := setEntry st.trigger_list t.name (to_json t) }

/-- The `retrigger text` command (retrigger.py lines 1940-1989).  Its
`regex` parameter is declared as `ValidRegex`, so the converter compiles
the string before the body runs; an invalid pattern is rejected with the
compiler diagnostic before the duplicate-name check. -/
def text_cmd (compile : String → Except String String) (st : GuildState)
    (name regex txt : String) (author created_at : Nat) :
    GuildState × CreateOutcome :=
  match compile regex with
  | Except.error e => (st, CreateOutcome.invalidPattern e)
  | Except.ok _ =>
      if containsKey st.triggers name then (st, CreateOutcome.alreadyExists)
      else
        match mkTrigger compile name regex ["text"] author created_at
            (some txt) false false with
        | Except.error e => (st, CreateOutcome.invalidPattern e)
        | Except.ok t => (addTrigger st t, CreateOutcome.created)

/-- The `retrigger ban` command (retrigger.py lines 2340-2374).  Its
`regex` parameter is a plain `str`, so no converter-level validation runs;
the string only reaches the compiler inside `Trigger` construction, after
the duplicate-name check. -/
def ban_cmd (compile : String → Except String String) (st : GuildState)
    (name regex : String) (author created_at : Nat) :
    GuildState × CreateOutcome :=
  if containsKey st.triggers name then (st, CreateOutcome.alreadyExists)
  else
    match mkTrigger compile name regex ["ban"] author created_at
        none true false with
    | Except.error e => (st, CreateOutcome.invalidPattern e)
    | Except.ok t => (addTrigger st t, CreateOutcome.created)

/-- The `retrigger kick` command (retrigger.py lines 2376-2410), identical
to `ban` except for the response type; its `regex` is also a plain `str`. -/
def kick_cmd (compile : String → Except String String) (st : GuildState)
    (name regex : String) (author created_at : Nat) :
    GuildState × CreateOutcome :=
  if containsKey st.triggers name then (st, CreateOutcome.alreadyExists)
  else
    match mkTrigger compile name regex ["kick"] author created_at
        none true false with
    | Except.error e => (st, CreateOutcome.invalidPattern e)
    | Except.ok t => (addTrigger st t, CreateOutcome.created)

/-- The `retrigger filter` delete-message command (retrigger.py lines
2584-2624); its `regex` is also a plain `str`. -/
def filter_cmd (compile : String → Except String String) (st : GuildState)
    (name : String) (check_filenames : Bool) (regex : String)
    (author created_at : Nat) : GuildState × CreateOutcome :=
  if containsKey st.triggers name then (st, CreateOutcome.alreadyExists)
  else
    match mkTrigger compile name regex ["delete"] author created_at
        none true check_filenames with
    | Except.error e => (st, CreateOutcome.invalidPattern e)
    | Except.ok t => (addTrigger st t, CreateOutcome.created)

/-- C1: when the supplied regex source does not compile, every creation
command - including ban, kick and filter, whose raw string only reaches the
compiler at `Trigger` construction - fails with the InvalidPattern
diagnostic and leaves the guild state (in-memory index and persisted list)
unchanged. -/
theorem invalid_regex_creation_rejected
    (compile : String → Except String String) (st : GuildState)
    (name regex txt : String) (author created_at : Nat) (e : String)
    (hc : compile regex = Except.error e)
    (hn : containsKey st.triggers name = false) :
    text_cmd compile st name regex txt author created_at =
      (st, CreateOutcome.invalidPattern e) ∧
    ban_cmd compile st name regex author created_at =
      (st, CreateOutcome.invalidPattern e) ∧
    kick_cmd compile st name regex author created_at =
      (st, CreateOutcome.invalidPattern e) ∧
    filter_cmd compile st name false regex author created_at =
      (st, CreateOutcome.invalidPattern e) := by
  refine ⟨?_, ?_, ?_, ?_⟩ <;>
    simp [text_cmd, ban_cmd, kick_cmd, filter_cmd, mkTrigger, hc, hn]

/-- A toy regex compiler used only to witness theorems that quantify over
the external compiler: it rejects exactly the pattern consisting of a
single opening parenthesis. -/
def toyCompile (s : String) : Except String String :=
  if s = "(" then Except.error "missing closing parenthesis" else Except.ok s

/-- An empty guild state used in closed witnesses. -/
def stEmpty : GuildState := { triggers := [], trigger_list := [] }

/-- Witness for the C1 theorem at concrete inputs. -/
theorem invalid_regex_creation_rejected_witness :
    toyCompile "(" = Except.error "missing closing parenthesis" ∧
    containsKey stEmpty.triggers "t" = false ∧
    ban_cmd toyCompile stEmpty "t" "(" 1 0 =
      (stEmpty, CreateOutcome.invalidPattern "missing closing parenthesis") :=
  ⟨rfl, by decide,
    (invalid_regex_creation_rejected toyCompile stEmpty "t" "(" "hi" 1 0
      "missing closing parenthesis" rfl (by decide)).2.1⟩

/-- C4: when a trigger with the requested name already exists in the
guild's in-memory index, the creation commands reject with the
duplicate-name outcome and leave the index and the persisted list
unchanged. -/
theorem duplicate_name_creation_rejected
    (compile : String → Except String String) (st : GuildState)
    (name regex txt r : String) (author created_at : Nat)
    (hdup : containsKey st.triggers name = true)
    (hc : compile regex = Except.ok r) :
    text_cmd compile st name regex txt author created_at =
      (st, CreateOutcome.alreadyExists) ∧
    ban_cmd compile st name regex author created_at =
      (st, CreateOutcome.alreadyExists) ∧
    kick_cmd compile st name regex author created_at =
      (st, CreateOutcome.alreadyExists) ∧
    filter_cmd compile st name false regex author created_at =
      (st, CreateOutcome.alreadyExists) := by
  refine ⟨?_, ?_, ?_, ?_⟩ <;>
    simp [text_cmd, ban_cmd, kick_cmd, filter_cmd, hc, hdup]

/-- Witness for the C4 theorem at concrete inputs. -/
theorem duplicate_name_creation_rejected_witness :
    containsKey st0.triggers "t" = true ∧
    toyCompile "hello" = Except.ok "hello" ∧
    text_cmd toyCompile st0 "t" "hello" "hi" 1 0 =
      (st0, CreateOutcome.alreadyExists) :=
  ⟨by decide, rfl,
    (duplicate_name_creation_rejected toyCompile st0 "t" "hello" "hi" "hello"
      1 0 (by decide) rfl).1⟩

/-- Outcome of an edit command. -/
inductive EditOutcome : Type
  | noTrigger
  | notAuthorized
  | ok
deriving DecidableEq, Repr

/-- Modelled from the spec: `TriggerHandler.can_edit` lives in
`triggerhandler.py`, which is not part of the handler source; spec section
3 says `author_id` is the creator identity used for edit authorization, so
the modelled check authorizes exactly the creator. -/
def canEditAuthor (author : Nat) (t : Trigger) : Bool :=
  author == t.author_id

/-- The `retrigger edit regex` command (retrigger.py lines 1034-1063):
reject a missing trigger, reject a caller failing `can_edit`, otherwise
replace the pattern and persist.  The authorization check itself is the
`can_edit` parameter. -/
def edit_regex (can_edit : Nat → Trigger → Bool) (st : GuildState)
    (author : Nat) (name regex : String) : GuildState × EditOutcome :=
  match getEntry st.triggers name with
  | none => (st, EditOutcome.noTrigger)
  | some t =>
      if can_edit author t then
        (updateState st name { t with regexSource := regex }, EditOutcome.ok)
      else (st, EditOutcome.notAuthorized)

/-- The `retrigger edit chance` command (retrigger.py lines 1404-1447):
reject a missing trigger, reject a caller failing `can_edit`, clamp a
negative chance to 0, store and persist. -/
def edit_chance (can_edit : Nat → Trigger → Bool) (st : GuildState)
    (author : Nat) (name : String) (chance : Int) : GuildState × EditOutcome :=
  match getEntry st.triggers name with
  | none => (st, EditOutcome.noTrigger)
  | some t =>
      if can_edit author t then
        (updateState st name
          { t with chance := if chance < 0 then 0 else chance },
         EditOutcome.ok)
      else (st, EditOutcome.notAuthorized)

/-- The `retrigger edit enable` command (retrigger.py lines 1698-1721):
after the existence check it sets `enabled` and persists - with no
`can_edit` authorization check. -/
def enable_trigger (st : GuildState) (name : String) :
    GuildState × EditOutcome :=
  match getEntry st.triggers name with
  | none => (st, EditOutcome.noTrigger)
  | some t => (updateState st name { t with enabled := true }, EditOutcome.ok)

/-- The `retrigger edit disable` command (retrigger.py lines 1723-1746):
after the existence check it clears `enabled` and persists - with no
`can_edit` authorization check. -/
def disable_trigger (st : GuildState) (name : String) :
    GuildState × EditOutcome :=
  match getEntry st.triggers name with
  | none => (st, EditOutcome.noTrigger)
  | some t => (updateState st name { t with enabled := false }, EditOutcome.ok)

/-- C5 counterexample: caller 2 is not the creator of `trig0` (author 1),
yet `disable` succeeds and flips the stored trigger to disabled - the
enable/disable commands perform no authorization check at all. -/
theorem unauthorized_disable_succeeds_counterexample :
    canEditAuthor 2 trig0 = false ∧
    (disable_trigger st0 "t").2 = EditOutcome.ok ∧
    (getEntry (disable_trigger st0 "t").1.triggers "t").map Trigger.enabled =
      some false ∧
    trig0.enabled = true := by
  decide

/-- C5 (amended): edit commands guarded by `can_edit` (here regex and
chance) reject an unauthorized caller and leave the state unchanged, but
`enable` and `disable` mutate and persist the trigger without any
authorization check. -/
theorem edit_authorization (can_edit : Nat → Trigger → Bool)
    (st : GuildState) (author : Nat) (name regex : String) (chance : Int)
    (t : Trigger) (ht : getEntry st.triggers name = some t)
    (hauth : can_edit author t = false) :
    edit_regex can_edit st author name regex =
      (st, EditOutcome.notAuthorized) ∧
    edit_chance can_edit st author name chance =
      (st, EditOutcome.notAuthorized) ∧
    enable_trigger st name =
      (updateState st name { t with enabled := true }, EditOutcome.ok) ∧
    disable_trigger st name =
      (updateState st name { t with enabled := false }, EditOutcome.ok) := by
  refine ⟨?_, ?_, ?_, ?_⟩ <;>
    simp [edit_regex, edit_chance, enable_trigger, disable_trigger, ht, hauth]

/-- Witness for the amended C5 theorem at concrete inputs. -/
theorem edit_authorization_witness :
    getEntry st0.triggers "t" = some trig0 ∧
    canEditAuthor 2 trig0 = false ∧
    edit_regex canEditAuthor st0 2 "t" "x" = (st0, EditOutcome.notAuthorized) :=
  ⟨by decide, by decide,
    (edit_authorization canEditAuthor st0 2 "t" "x" 5 trig0 (by decide)
      (by decide)).1⟩

/-- Boolean check that an optional looked-up trigger has a non-negative
chance. -/
def chanceNonneg : Option Trigger → Bool
  | none => true
  | some u => decide (0 ≤ u.chance)

/-- C9: whenever `edit chance` completes successfully, the chance stored in
the in-memory index and in the persisted list is non-negative, and a
negative input has been clamped to 0. -/
theorem edit_chance_clamps_nonneg (can_edit : Nat → Trigger → Bool)
    (st : GuildState) (author : Nat) (name : String) (chance : Int)
    (hok : (edit_chance can_edit st author name chance).2 = EditOutcome.ok) :
    chanceNonneg
      (getEntry (edit_chance can_edit st author name chance).1.triggers name) =
      true ∧
    chanceNonneg
      (getEntry
        (edit_chance can_edit st author name chance).1.trigger_list name) =
      true ∧
    (chance < 0 →
      (getEntry (edit_chance can_edit st author name chance).1.triggers
        name).map Trigger.chance = some 0) := by
  cases hlt : getEntry st.triggers name with
  | none => simp [edit_chance, hlt] at hok
  | some t =>
      cases hce : can_edit author t with
      | false => simp [edit_chance, hlt, hce] at hok
      | true =>
          have hres : (edit_chance can_edit st author name chance).1 =
              updateState st name
                { t with chance := if chance < 0 then 0 else chance } := by
            simp [edit_chance, hlt, hce]
          rw [hres]
          unfold updateState
          refine ⟨?_, ?_, ?_⟩
          · rw [getEntry_setEntry_self]
            by_cases h : chance < 0 <;> simp [chanceNonneg, h]
            omega
          · rw [getEntry_setEntry_self]
            by_cases h : chance < 0 <;> simp [chanceNonneg, to_json, h]
            omega
          · intro h
            rw [getEntry_setEntry_self]
            simp [h]

/-- Witness for the C9 theorem at concrete inputs. -/
theorem edit_chance_clamps_nonneg_witness :
    (edit_chance canEditAuthor st0 1 "t" (-5)).2 = EditOutcome.ok ∧
    chanceNonneg
      (getEntry (edit_chance canEditAuthor st0 1 "t" (-5)).1.triggers "t") =
      true :=
  ⟨by decide,
    (edit_chance_clamps_nonneg canEditAuthor st0 1 "t" (-5) (by decide)).1⟩

/-- Outcome of the operator confirmation prompt: an explicit yes or no
reaction, or the 30-second wait expiring. -/
inductive Confirm : Type
  | yes
  | no
  | timedOut
deriving DecidableEq, Repr

/-- The `retrigger timeout` command (retrigger.py lines 1748-1791) acting
on the stored global `trigger_timeout`.  Returns the new stored value and
whether a confirmation prompt was shown.  A requested value above 1 asks
for confirmation and keeps the current value unless the operator reacts
yes; otherwise the value is clamped up to 1 and stored directly.  The
`timeout > 10` branch is kept as in the source even though it is
unreachable after `timeout > 1`. -/
def timeout_cmd (cur v : Int) (conf : Confirm) : Int × Bool :=
  if 1 < v then
    match conf with
    | Confirm.yes => (v, true)
    | Confirm.no => (cur, true)
    | Confirm.timedOut => (cur, true)
  else if 10 < v then (cur, false)
  else (if v < 1 then 1 else v, false)

/-- The `retrigger bypass` command (retrigger.py lines 1793-1829) acting on
the guild's stored `bypass` flag.  Enabling asks for confirmation and keeps
the current flag unless the operator reacts yes; disabling is stored
directly. -/
def bypass_cmd (cur b : Bool) (conf : Confirm) : Bool × Bool :=
  if b then
    match conf with
    | Confirm.yes => (b, true)
    | Confirm.no => (cur, true)
    | Confirm.timedOut => (cur, true)
  else (b, false)

/-- C6: raising the timeout above 1 second and enabling bypass are
confirmation-gated, a declined or expired confirmation leaves the stored
setting unchanged, and disabling bypass takes effect with no
confirmation. -/
theorem timeout_bypass_confirmation (cur v : Int) (bc : Bool)
    (conf : Confirm) :
    (1 < v → (timeout_cmd cur v conf).2 = true) ∧
    (1 < v → conf ≠ Confirm.yes → (timeout_cmd cur v conf).1 = cur) ∧
    (bypass_cmd bc true conf).2 = true ∧
    (conf ≠ Confirm.yes → (bypass_cmd bc true conf).1 = bc) ∧
    bypass_cmd bc false conf = (false, false) := by
  refine ⟨?_, ?_, ?_, ?_, ?_⟩
  · intro hv
    simp [timeout_cmd, hv]
    cases conf <;> rfl
  · intro hv hconf
    simp [timeout_cmd, hv]
    cases conf with
    | yes => exact absurd rfl hconf
    | no => rfl
    | timedOut => rfl
  · simp [bypass_cmd]
    cases conf <;> rfl
  · intro hconf
    simp [bypass_cmd]
    cases conf with
    | yes => exact absurd rfl hconf
    | no => rfl
    | timedOut => rfl
  · simp [bypass_cmd]

/-- Witness for the C6 theorem at concrete inputs. -/
theorem timeout_bypass_confirmation_witness :
    (1 : Int) < 5 ∧ Confirm.no ≠ Confirm.yes ∧
    (timeout_cmd 1 5 Confirm.no).1 = 1 :=
  ⟨by decide, by decide,
    (timeout_bypass_confirmation 1 5 true Confirm.no).2.1 (by decide)
      (by decide)⟩

/-- The failure `before_save_loop` can hit while rebuilding a guild's
index. -/
inductive LoadError : Type
  | nameError
deriving DecidableEq, Repr

/-- Inner loop of `before_save_loop` over one guild's stored records
(retrigger.py lines 136-144).  Each record is represented by the outcome of
`Trigger.from_json` on it (`none` when deserialization raises), since
`from_json` lives in `converters.py` outside the handler source.  The
`reg` argument models the local variable `new_trigger`: the `except`
clause only logs, so after a failed record the variable keeps its previous
value, and the assignment into the index sits outside the `try` block and
runs on every iteration - reading an unbound `new_trigger` raises
NameError. -/
def load_guild_records : List (Option Trigger) → Option Trigger →
    List (String × Trigger) → Except LoadError (List (String × Trigger))
  | [], _, idx => Except.ok idx
  | r :: rest, reg, idx =>
      match (match r with | some t => some t | none => reg) with
      | none => Except.error LoadError.nameError
      | some t => load_guild_records rest (some t) (setEntry idx t.name t)

/-- Rebuilding one guild's in-memory index from its stored records, as
`before_save_loop` does starting from `self.triggers[guild] = ` an empty
dict and an unbound `new_trigger`. -/
def load_guild_triggers (records : List (Option Trigger)) :
    Except LoadError (List (String × Trigger)) :=
  load_guild_records records none []

/-- A second concrete trigger, distinct from `trig0`, for load and flush
scenarios. -/
def trig1 : Trigger :=
  { name := "u", regexSource := "bye", response_type := ["text"],
    author_id := 3, text := some "bye" }

/-- C7: when the first stored record of a guild fails deserialization the
load aborts with NameError instead of dropping the record and continuing;
a later failing record is survived only because the previous iteration's
trigger is silently re-assigned. -/
theorem load_failed_record_behavior :
    load_guild_triggers [none, some trig0] =
      Except.error LoadError.nameError ∧
    load_guild_triggers [some trig0, none, some trig1] =
      Except.ok [("t", trig0), ("u", trig1)] := by
  exact ⟨rfl, rfl⟩

/-- Per-guild body of `save_all_triggers` (retrigger.py lines 103-109):
fold over the in-memory triggers, writing each serialized form into the
persisted list; `ser` returns `none` when `to_json` raises KeyError
because the trigger vanished mid-flush, and such triggers are skipped. -/
def save_guild_triggers (ser : Trigger → Option Trigger) :
    List Trigger → List (String × Trigger) → List (String × Trigger)
  | [], tl => tl
  | t :: rest, tl =>
      match ser t with
      | some j => save_guild_triggers ser rest (setEntry tl t.name j)
      | none => save_guild_triggers ser rest tl

theorem save_guild_triggers_not_mem (ser : Trigger → Option Trigger)
    (trigs : List Trigger) (tl : List (String × Trigger)) (name : String)
    (h : name ∉ trigs.map Trigger.name) :
    getEntry (save_guild_triggers ser trigs tl) name = getEntry tl name := by
  induction trigs generalizing tl with
  | nil => rfl
  | cons t rest ih =>
      simp only [List.map_cons, List.mem_cons] at h
      push_neg at h
      cases hs : ser t with
      | some j =>
          rw [save_guild_triggers, hs]
          rw [ih _ h.2, getEntry_setEntry_ne _ _ _ _ h.1]
      | none =>
          rw [save_guild_triggers, hs]
          exact ih _ h.2

theorem save_guild_triggers_mem (ser : Trigger → Option Trigger)
    (trigs : List Trigger) :
    ∀ tl, (trigs.map Trigger.name).Nodup → ∀ t j, t ∈ trigs →
      ser t = some j →
      getEntry (save_guild_triggers ser trigs tl) t.name = some j := by
  induction trigs with
  | nil => intro tl _ t j hmem; exact absurd hmem (List.not_mem_nil t)
  | cons t1 rest ih =>
      intro tl hnodup t j hmem hser
      simp only [List.map_cons, List.nodup_cons] at hnodup
      rcases List.mem_cons.mp hmem with rfl | hmem1
      · rw [save_guild_triggers, hser]
        rw [save_guild_triggers_not_mem _ _ _ _ hnodup.1]
        exact getEntry_setEntry_self _ _ _
      · cases hs : ser t1 with
        | some j1 =>
            rw [save_guild_triggers, hs]
            exact ih _ hnodup.2 t j hmem1 hser
        | none =>
            rw [save_guild_triggers, hs]
            exact ih _ hnodup.2 t j hmem1 hser

theorem save_guild_triggers_filter (ser : Trigger → Option Trigger)
    (trigs : List Trigger) :
    ∀ tl, save_guild_triggers ser trigs tl =
      save_guild_triggers ser (trigs.filter fun t => (ser t).isSome) tl := by
  induction trigs with
  | nil => intro tl; rfl
  | cons t1 rest ih =>
      intro tl
      cases hs : ser t1 with
      | some j1 =>
          rw [List.filter_cons_of_pos (by simp [hs])]
          simp only [save_guild_triggers, hs]
          exact ih _
      | none =>
          rw [List.filter_cons_of_neg (by simp [hs])]
          simp only [save_guild_triggers, hs]
          exact ih _

/-- C8: with distinct trigger names (the in-memory cache is keyed by
name), every trigger whose serialization succeeds ends up stored under its
name, and triggers whose serialization raises are simply skipped - the
flush result is the same as flushing only the serializable triggers. -/
theorem save_flush_writes_all (ser : Trigger → Option Trigger)
    (trigs : List Trigger) (tl : List (String × Trigger))
    (hnodup : (trigs.map Trigger.name).Nodup) :
    (∀ t j, t ∈ trigs → ser t = some j →
      getEntry (save_guild_triggers ser trigs tl) t.name = some j) ∧
    save_guild_triggers ser trigs tl =
      save_guild_triggers ser (trigs.filter fun t => (ser t).isSome) tl :=
  ⟨save_guild_triggers_mem ser trigs tl hnodup,
   save_guild_triggers_filter ser trigs tl⟩

/-- Serialization used in the C8 witness: the trigger named `v` vanishes
mid-flush, the others serialize. -/
def serW (t : Trigger) : Option Trigger :=
  if t.name = "v" then none else some t

/-- The vanished trigger of the C8 witness. -/
def trigV : Trigger :=
  { name := "v", regexSource := "gone", response_type := ["text"],
    author_id := 9 }

/-- Witness for the C8 theorem at concrete inputs. -/
theorem save_flush_writes_all_witness :
    ([trig0, trigV, trig1].map Trigger.name).Nodup ∧
    trig1 ∈ [trig0, trigV, trig1] ∧ serW trig1 = some trig1 ∧
    getEntry (save_guild_triggers serW [trig0, trigV, trig1] []) trig1.name =
      some trig1 :=
  ⟨by decide, by decide, rfl,
    (save_flush_writes_all serW [trig0, trigV, trig1] [] (by decide)).1
      trig1 trig1 (by decide) rfl⟩

/-- Outcome of the allowlist/blocklist add commands. -/
inductive ListEditOutcome : Type
  | noTrigger
  | noTargets
  | ok
deriving DecidableEq, Repr

/-- One iteration of the allowlist-add loop (retrigger.py lines 886-890):
append the identifier and re-persist only when it is not already
present. -/
def whitelist_add_step (st : GuildState) (name : String) (i : Nat) :
    GuildState :=
  match getEntry st.triggers name with
  | none => st
  | some t =>
      if i ∈ t.whitelist then st
      else updateState st name { t with whitelist := t.whitelist ++ [i] }

/-- The `retrigger allowlist add` command (retrigger.py lines 859-900):
reject a missing trigger or an empty target list, otherwise run the add
loop over the supplied identifiers. -/
def whitelist_add_cmd (st : GuildState) (name : String) (ids : List Nat) :
    GuildState × ListEditOutcome :=
  match getEntry st.triggers name with
  | none => (st, ListEditOutcome.noTrigger)
  | some _ =>
      if ids.length < 1 then (st, ListEditOutcome.noTargets)
      else (ids.foldl (fun s i => whitelist_add_step s name i) st,
            ListEditOutcome.ok)

/-- One iteration of the blocklist-add loop (retrigger.py lines 974-978). -/
def blacklist_add_step (st : GuildState) (name : String) (i : Nat) :
    GuildState :=
  match getEntry st.triggers name with
  | none => st
  | some t =>
      if i ∈ t.blacklist then st
      else updateState st name { t with blacklist := t.blacklist ++ [i] }

/-- The `retrigger blocklist add` command (retrigger.py lines 947-987). -/
def blacklist_add_cmd (st : GuildState) (name : String) (ids : List Nat) :
    GuildState × ListEditOutcome :=
  match getEntry st.triggers name with
  | none => (st, ListEditOutcome.noTrigger)
  | some _ =>
      if ids.length < 1 then (st, ListEditOutcome.noTargets)
      else (ids.foldl (fun s i => blacklist_add_step s name i) st,
            ListEditOutcome.ok)

/-- Boolean check that an optional looked-up trigger has a duplicate-free
allowlist. -/
def wlNodup : Option Trigger → Bool
  | none => true
  | some t => decide t.whitelist.Nodup

/-- Boolean check that an optional looked-up trigger has a duplicate-free
blocklist. -/
def blNodup : Option Trigger → Bool
  | none => true
  | some t => decide t.blacklist.Nodup

theorem whitelist_add_step_preserves (st : GuildState) (name : String)
    (i : Nat) (h : wlNodup (getEntry st.triggers name) = true) :
    wlNodup (getEntry (whitelist_add_step st name i).triggers name) = true := by
  cases ht : getEntry st.triggers name with
  | none => simp [whitelist_add_step, ht, wlNodup]
  | some t =>
      rw [ht] at h
      simp only [wlNodup, decide_eq_true_eq] at h
      by_cases hmem : i ∈ t.whitelist
      · simp [whitelist_add_step, ht, hmem, h, wlNodup]
      · simp only [whitelist_add_step, ht]
        rw [if_neg hmem]
        simp only [updateState]
        rw [getEntry_setEntry_self]
        simp only [wlNodup, decide_eq_true_eq]
        rw [List.nodup_append]
        exact ⟨h, List.nodup_singleton i, by simpa using hmem⟩

theorem blacklist_add_step_preserves (st : GuildState) (name : String)
    (i : Nat) (h : blNodup (getEntry st.triggers name) = true) :
    blNodup (getEntry (blacklist_add_step st name i).triggers name) = true := by
  cases ht : getEntry st.triggers name with
  | none => simp [blacklist_add_step, ht, blNodup]
  | some t =>
      rw [ht] at h
      simp only [blNodup, decide_eq_true_eq] at h
      by_cases hmem : i ∈ t.blacklist
      · simp [blacklist_add_step, ht, hmem, h, blNodup]
      · simp only [blacklist_add_step, ht]
        rw [if_neg hmem]
        simp only [updateState]
        rw [getEntry_setEntry_self]
        simp only [blNodup, decide_eq_true_eq]
        rw [List.nodup_append]
        exact ⟨h, List.nodup_singleton i, by simpa using hmem⟩

theorem whitelist_fold_preserves (name : String) (ids : List Nat) :
    ∀ st : GuildState, wlNodup (getEntry st.triggers name) = true →
      wlNodup (getEntry
        (ids.foldl (fun s i => whitelist_add_step s name i) st).triggers
        name) = true := by
  induction ids with
  | nil => intro st h; exact h
  | cons i rest ih =>
      intro st h
      exact ih _ (whitelist_add_step_preserves st name i h)

theorem blacklist_fold_preserves (name : String) (ids : List Nat) :
    ∀ st : GuildState, blNodup (getEntry st.triggers name) = true →
      blNodup (getEntry
        (ids.foldl (fun s i => blacklist_add_step s name i) st).triggers
        name) = true := by
  induction ids with
  | nil => intro st h; exact h
  | cons i rest ih =>
      intro st h
      exact ih _ (blacklist_add_step_preserves st name i h)

/-- C10: adding an identifier already present in the allowlist
(respectively blocklist) changes nothing, and the add commands keep both
lists free of duplicate entries. -/
theorem list_add_idempotent_no_duplicates (st : GuildState) (name : String)
    (i : Nat) (ids : List Nat) (t : Trigger)
    (ht : getEntry st.triggers name = some t) :
    (i ∈ t.whitelist → whitelist_add_step st name i = st) ∧
    (i ∈ t.blacklist → blacklist_add_step st name i = st) ∧
    (wlNodup (getEntry st.triggers name) = true →
      wlNodup (getEntry (whitelist_add_cmd st name ids).1.triggers name) =
        true) ∧
    (blNodup (getEntry st.triggers name) = true →
      blNodup (getEntry (blacklist_add_cmd st name ids).1.triggers name) =
        true) := by
  refine ⟨?_, ?_, ?_, ?_⟩
  · intro hmem
    simp [whitelist_add_step, ht, hmem]
  · intro hmem
    simp [blacklist_add_step, ht, hmem]
  · intro h
    by_cases hlen : ids.length < 1
    · have h2 := h
      rw [ht] at h2
      simpa [whitelist_add_cmd, ht, hlen] using h2
    · simp only [whitelist_add_cmd, ht, hlen, if_neg]
      exact whitelist_fold_preserves name ids st h
  · intro h
    by_cases hlen : ids.length < 1
    · have h2 := h
      rw [ht] at h2
      simpa [blacklist_add_cmd, ht, hlen] using h2
    · simp only [blacklist_add_cmd, ht, hlen, if_neg]
      exact blacklist_fold_preserves name ids st h

/-- A trigger whose allowlist already holds identifier 7, for the C10
witness. -/
def trigW : Trigger :=
  { name := "w", regexSource := "w", response_type := ["text"],
    author_id := 1, whitelist := [7, 8] }

/-- A guild state holding `trigW`, for the C10 witness. -/
def stW : GuildState :=
  { triggers := [("w", trigW)], trigger_list := [("w", to_json trigW)] }

/-- Witness for the C10 theorem at concrete inputs. -/
theorem list_add_idempotent_no_duplicates_witness :
    getEntry stW.triggers "w" = some trigW ∧ 7 ∈ trigW.whitelist ∧
    whitelist_add_step stW "w" 7 = stW :=
  ⟨by decide, by decide,
    (list_add_idempotent_no_duplicates stW "w" 7 [7, 9] trigW
      (by decide)).1 (by decide)⟩

end ReTrigger
